import Mathlib

set_option linter.unusedVariables false

/- Shallow embedding of src/windows/winhsock.c: a PuTTY Socket wrapper around
   Windows HANDLEs.  The wrapper owns a freeze/thaw flow-control state machine,
   buffers input received during the freeze race, drains it via top-level
   callbacks, and guards `sk_handle_close` against re-entrant calls made by the
   Plug from inside a delivery callback. -/

/-- The four freeze states of a HandleSocket (the `frozen` enum field). -/
inductive FrozenState
| UNFROZEN
| FREEZING
| FROZEN
| THAWING
deriving DecidableEq, Repr

/-- A bufchain is modelled as the list of its non-empty granules.
    `bufchain_add` of a non-empty block appends one granule (adding an empty
    block leaves the chain unchanged, as in misc.c); `bufchain_prefix` peeks
    the first granule and `bufchain_consume` of its length removes it, which
    is exactly how handle_socket_unfreeze uses the chain.  The byte content
    and ordering are what the claims are about. -/
def bufchain_add (b : List (List Nat)) (data : List Nat) : List (List Nat) :=
  if data = [] then b else b ++ [data]

/-- `bufchain_size`: total number of buffered bytes. -/
def bufchain_size (b : List (List Nat)) : Nat :=
  (b.map List.length).sum

/-- All bytes of a bufchain in order. -/
def bufchain_bytes (b : List (List Nat)) : List Nat :=
  b.flatten

/-- The mutable state of a `HandleSocket` structure.  `send_H`/`recv_H` and the
    optional `stderr_H` are the opaque OS handles; the worker-thread wrappers
    `send_h`/`recv_h`/`stderr_h` are implied by them (one registered per
    handle in `make_handle_socket`).  `plug` is the registered Plug pointer,
    `none` standing for a null pointer. -/
structure HS where
  send_H : Nat
  recv_H : Nat
  stderr_H : Option Nat
  frozen : FrozenState
  inputdata : List (List Nat)
  stderrdata : List (List Nat)
  defer_close : Bool
  deferred_close : Bool
  error : Option String
  plug : Option Nat
deriving DecidableEq, Repr

/-- Calls the adapter makes outward to its Plug (plug_receive, plug_closing,
    plug_sent). -/
inductive PlugEvent
| receive (data : List Nat)
| closing (msg : Option String) (code : Int)
| sent (backlog : Int)
deriving DecidableEq, Repr

/-- INT_MAX on the 32-bit int used by the C source. -/
def INT_MAX : Int := 2147483647

/-- Modelled from the spec: `win_strerror` (external to this file) renders a
    platform error code as a human-readable description.  Only the fact that
    the description is a function of the code matters to the claims. -/
def win_strerror (code : Int) : String :=
  "Error code " ++ toString code

/-- `handle_gotdata`: the Engine's read callback.  Negative length is a read
    error, zero is EOF, positive carries `data` (so `len = data.length` in any
    real call).  Returns the updated socket state, the Plug calls made, and
    the backlog value returned to winhandl.c.  The C code asserts
    `frozen != FROZEN && frozen != THAWING` on the positive path; that Engine
    contract is imposed on traces by `valid_eventb` below. -/
def handle_gotdata (hs : HS) (data : List Nat) (len : Int) :
    HS × List PlugEvent × Int :=
  if len < 0 then
    (hs, [PlugEvent.closing (some "Read error from handle") 0], 0)
  else if len = 0 then
    (hs, [PlugEvent.closing none 0], 0)
  else if hs.frozen = FrozenState.FREEZING then
    ({ hs with inputdata := bufchain_add hs.inputdata data,
               frozen := FrozenState.FROZEN }, [], INT_MAX)
  else
    (hs, [PlugEvent.receive data], 0)

/-- `handle_sentdata`: the Engine's sent-backlog callback.  A negative value
    smuggles a platform error code (negated); it is turned into a fatal
    plug_closing with a win_strerror description.  The HandleSocket state is
    not touched on either path. -/
def handle_sentdata (new_backlog : Int) : List PlugEvent :=
  if new_backlog < 0 then
    [PlugEvent.closing (some (win_strerror (-new_backlog))) (-new_backlog)]
  else
    [PlugEvent.sent new_backlog]

/-- `sk_handle_plug`: returns the previously registered Plug and installs the
    new one only when it is non-null. -/
def sk_handle_plug (hs : HS) (p : Option Nat) : Option Nat × HS :=
  match p with
  | some q => (hs.plug, { hs with plug := some q })
  | none => (hs.plug, hs)

/-- `sk_handle_set_frozen`: the freeze/thaw transition function.  The returned
    Bool records whether a handle_socket_unfreeze drain callback was queued
    (queue_toplevel_callback), which happens exactly on the FROZEN→THAWING
    transition. -/
def sk_handle_set_frozen (hs : HS) (is_frozen : Bool) : HS × Bool :=
  if is_frozen then
    match hs.frozen with
    | FrozenState.FREEZING => (hs, false)
    | FrozenState.FROZEN => (hs, false)
    | FrozenState.THAWING => ({ hs with frozen := FrozenState.FROZEN }, false)
    | FrozenState.UNFROZEN => ({ hs with frozen := FrozenState.FREEZING }, false)
  else
    match hs.frozen with
    | FrozenState.UNFROZEN => (hs, false)
    | FrozenState.THAWING => (hs, false)
    | FrozenState.FREEZING => ({ hs with frozen := FrozenState.UNFROZEN }, false)
    | FrozenState.FROZEN => ({ hs with frozen := FrozenState.THAWING }, true)

/-- `sk_handle_socket_error`: returns the `error` field. -/
def sk_handle_socket_error (hs : HS) : Option String :=
  hs.error

/-- `make_handle_socket`: the constructor.  It registers the input worker for
    `recv_H`, the output worker for `send_H` and (when present) an input
    worker for `stderr_H`, and initialises every field as in the C code. -/
def make_handle_socket (send_H recv_H : Nat) (stderr_H : Option Nat)
    (plug : Option Nat) : HS :=
  { send_H := send_H, recv_H := recv_H, stderr_H := stderr_H,
    frozen := FrozenState.UNFROZEN, inputdata := [], stderrdata := [],
    defer_close := false, deferred_close := false, error := none, plug := plug }

/-- The externally visible teardown steps performed by `sk_handle_close`:
    handle_free on the output worker (send_h), handle_free on the input worker
    (recv_h), handle_free on the stderr worker (stderr_h, which the C code
    never performs), CloseHandle on an OS handle, the two bufchain_clear
    calls, and the final sfree of the HandleSocket itself. -/
inductive CloseAction
| handle_free_send
| handle_free_recv
| handle_free_stderr
| close_handle (h : Nat)
| clear_inputdata
| clear_stderrdata
| sfree
deriving DecidableEq, Repr

/-- A HandleSocket together with lifecycle instrumentation: whether
    `sfree(hs)` has run, and how many times a full teardown has completed. -/
structure CState where
  hs : HS
  freed : Bool
  teardowns : Nat
deriving DecidableEq, Repr

/-- `sk_handle_close`.  When `defer_close` is set (a Plug callback is on the
    stack) it only records `deferred_close := true` and performs nothing;
    otherwise it frees both workers, closes the OS handles (the receive
    handle only when distinct from the send handle), clears both bufchains
    and frees the structure.  Returns the instrumented state and the list of
    teardown actions performed, in order. -/
def sk_handle_close (c : CState) : CState × List CloseAction :=
  if c.hs.defer_close then
    ({ c with hs := { c.hs with deferred_close := true } }, [])
  else
    ({ c with
       hs := { c.hs with inputdata := [], stderrdata := [] },
       freed := true,
       teardowns := c.teardowns + 1 },
     [CloseAction.handle_free_send, CloseAction.handle_free_recv,
      CloseAction.close_handle c.hs.send_H] ++
     (if c.hs.recv_H ≠ c.hs.send_H then [CloseAction.close_handle c.hs.recv_H]
      else []) ++
     [CloseAction.clear_inputdata, CloseAction.clear_stderrdata,
      CloseAction.sfree])

/-- The teardown order asserted by the specification (§4.4/§5): release the
    read worker, then the write worker, then the side-channel worker when a
    side handle is present, then the underlying handles, then the queues,
    then the adapter.  Stated from the spec's words, for comparison with the
    actions `sk_handle_close` actually performs. -/
def spec_close_order (c : CState) : List CloseAction :=
  [CloseAction.handle_free_recv, CloseAction.handle_free_send] ++
  (if c.hs.stderr_H.isSome then [CloseAction.handle_free_stderr] else []) ++
  [CloseAction.close_handle c.hs.send_H] ++
  (if c.hs.recv_H ≠ c.hs.send_H then [CloseAction.close_handle c.hs.recv_H]
   else []) ++
  [CloseAction.clear_inputdata, CloseAction.clear_stderrdata,
   CloseAction.sfree]

/-- A Plug that reacts to a delivery callback by calling `sk_handle_close`
    `n` times before returning. -/
def close_n (c : CState) : Nat → CState
| 0 => c
| Nat.succ n => close_n (sk_handle_close c).1 n

/-- `handle_socket_unfreeze`, the drain callback queued by
    `sk_handle_set_frozen`, instrumented with a Plug that calls close
    `nCloses` times from inside `plug_receive`.  It self-cancels unless the
    state is still THAWING; otherwise it peeks the first granule (the C code
    asserts it is non-empty, which holds on reachable states), delivers it
    under `defer_close`, consumes it, completes a deferred close if one was
    requested, and then either reschedules itself (data left) or returns to
    UNFROZEN and unthrottles the receive worker.  Returns the new state and
    the chunks delivered to the Plug. -/
def handle_socket_unfreeze_r (c : CState) (nCloses : Nat) :
    CState × List (List Nat) :=
  if c.hs.frozen = FrozenState.THAWING then
    match c.hs.inputdata with
    | [] => (c, [])
    | d :: rest =>
      let c1 : CState := { c with hs := { c.hs with defer_close := true } }
      let c2 : CState := close_n c1 nCloses
      let c3 : CState :=
        { c2 with
          hs := { c2.hs with inputdata := rest, defer_close := false } }
      if c3.hs.deferred_close then
        ((sk_handle_close c3).1, [d])
      else if bufchain_size rest > 0 then
        (c3, [d])
      else
        ({ c3 with hs := { c3.hs with frozen := FrozenState.UNFROZEN } }, [d])
  else (c, [])

/-- The positive-length branch of `handle_gotdata`, instrumented with a Plug
    that calls close `nCloses` times from inside `plug_receive`.  After the
    `plug_receive` call this path only returns 0 and never touches the
    socket again, so the returned state is exactly the one the Plug's own
    close calls produced. -/
def handle_gotdata_r (c : CState) (data : List Nat) (nCloses : Nat) :
    CState × Int :=
  if c.hs.frozen = FrozenState.FREEZING then
    ({ c with
       hs := { c.hs with inputdata := bufchain_add c.hs.inputdata data,
                         frozen := FrozenState.FROZEN } }, INT_MAX)
  else
    (close_n c nCloses, 0)

/-- The entry points exercised by the freeze/thaw claims: a setFrozen request,
    an Engine delivery of data (positive length), an Engine EOF (length 0), an
    Engine read error (negative length), and a firing of the queued drain
    callback. -/
inductive SockEvent
| setFrozen (b : Bool)
| gotData (data : List Nat)
| gotEOF
| gotReadError
| drain
deriving DecidableEq, Repr

/-- The payloads of the plug_receive calls among a list of Plug events. -/
def plug_receives (l : List PlugEvent) : List (List Nat) :=
  l.filterMap (fun ev => match ev with
    | PlugEvent.receive d => some d
    | _ => none)

/-- One step of the adapter: the entry point invoked for each event, and the
    chunks delivered to the Plug during it.  Drain callbacks run with a Plug
    that does not call back into the socket. -/
def sock_step (c : CState) : SockEvent → CState × List (List Nat)
| SockEvent.setFrozen b => ({ c with hs := (sk_handle_set_frozen c.hs b).1 }, [])
| SockEvent.gotData d =>
  ({ c with hs := (handle_gotdata c.hs d (d.length : Int)).1 },
   plug_receives (handle_gotdata c.hs d (d.length : Int)).2.1)
| SockEvent.gotEOF =>
  ({ c with hs := (handle_gotdata c.hs [] 0).1 },
   plug_receives (handle_gotdata c.hs [] 0).2.1)
| SockEvent.gotReadError =>
  ({ c with hs := (handle_gotdata c.hs [] (-1)).1 },
   plug_receives (handle_gotdata c.hs [] (-1)).2.1)
| SockEvent.drain => handle_socket_unfreeze_r c 0

/-- Run a sequence of events, collecting all chunks delivered to the Plug. -/
def sock_run (c : CState) : List SockEvent → CState × List (List Nat)
| [] => (c, [])
| e :: es =>
  ((sock_run (sock_step c e).1 es).1,
   (sock_step c e).2 ++ (sock_run (sock_step c e).1 es).2)

/-- All bytes delivered by the Engine over a trace (positive-length
    deliveries only). -/
def engine_bytes : List SockEvent → List Nat
| [] => []
| SockEvent.gotData d :: es => d ++ engine_bytes es
| SockEvent.setFrozen _ :: es => engine_bytes es
| SockEvent.gotEOF :: es => engine_bytes es
| SockEvent.gotReadError :: es => engine_bytes es
| SockEvent.drain :: es => engine_bytes es

/-- The Engine contract for one event: a positive-length delivery carries
    data and never occurs while the socket is FROZEN or THAWING (the
    assertion in handle_gotdata). -/
def valid_eventb (c : CState) : SockEvent → Bool
| SockEvent.gotData d =>
  decide (d ≠ []) && decide (c.hs.frozen ≠ FrozenState.FROZEN) &&
    decide (c.hs.frozen ≠ FrozenState.THAWING)
| _ => true

/-- The Engine contract over a whole trace. -/
def valid_eventsb : CState → List SockEvent → Bool
| _, [] => true
| c, e :: es => valid_eventb c e && valid_eventsb (sock_step c e).1 es

/-- The invariant claimed by the specification (§3): the input queue is empty
    whenever the socket is UNFROZEN, and is non-empty only in the FROZEN and
    THAWING states. -/
def c6_invariant (c : CState) : Prop :=
  (c.hs.frozen = FrozenState.UNFROZEN → c.hs.inputdata = []) ∧
  (c.hs.inputdata ≠ [] →
    c.hs.frozen = FrozenState.FROZEN ∨ c.hs.frozen = FrozenState.THAWING)

/-- The inductive strengthening used to establish `c6_invariant` on reachable
    states: the queue is non-empty exactly in the FROZEN/THAWING states, its
    granules are non-empty, and no close-deferral flag is pending. -/
def sock_inv (c : CState) : Prop :=
  ((c.hs.frozen = FrozenState.FROZEN ∨ c.hs.frozen = FrozenState.THAWING) ↔
    c.hs.inputdata ≠ []) ∧
  (∀ d ∈ c.hs.inputdata, d ≠ []) ∧
  c.hs.defer_close = false ∧ c.hs.deferred_close = false

/-- A freshly constructed socket, instrumented. -/
def init_cstate (sH rH : Nat) (eH : Option Nat) (p : Option Nat) : CState :=
  { hs := make_handle_socket sH rH eH p, freed := false, teardowns := 0 }

/-- Bytes delivered by the Engine in a single event. -/
def event_bytes : SockEvent → List Nat
| SockEvent.gotData d => d
| SockEvent.setFrozen _ => []
| SockEvent.gotEOF => []
| SockEvent.gotReadError => []
| SockEvent.drain => []

/-- Number of plug_closing calls in a list of Plug events. -/
def count_closing (l : List PlugEvent) : Nat :=
  (l.filter (fun ev => match ev with
    | PlugEvent.closing _ _ => true
    | _ => false)).length

/-- Number of plug_sent calls in a list of Plug events. -/
def count_sent (l : List PlugEvent) : Nat :=
  (l.filter (fun ev => match ev with
    | PlugEvent.sent _ => true
    | _ => false)).length

/-- Modelled from the spec: the write-side state of the Engine's worker for
    the send handle (winhandl.c, which is outside this source tree): the
    bytes queued but not yet flushed. -/
structure EngineWriter where
  queued : List Nat
deriving DecidableEq, Repr

/-- Calls the adapter makes into the Engine's write side. -/
inductive EngineCall
| write (data : List Nat)
deriving DecidableEq, Repr

/-- Modelled from the spec: the Engine contract's
    `write(workerToken, bytes) -> queuedBacklog` operation queues the bytes
    and returns the resulting queued backlog. -/
def engine_handle_write (w : EngineWriter) (data : List Nat) :
    EngineWriter × Int :=
  (⟨w.queued ++ data⟩, ((w.queued ++ data).length : Int))

/-- `sk_handle_write`: forwards the data unconditionally to the Engine's
    `handle_write` on the send worker and returns what the Engine reports.
    Returns the Engine's new write-side state, the returned backlog and the
    list of Engine calls issued. -/
def sk_handle_write (w : EngineWriter) (data : List Nat) :
    EngineWriter × Int × List EngineCall :=
  ((engine_handle_write w data).1, (engine_handle_write w data).2,
   [EngineCall.write data])

/-- A sequence of `sk_handle_plug` calls applied to a socket, in order. -/
def plug_updates (hs : HS) : List (Option Nat) → HS
| [] => hs
| p :: ps => plug_updates (sk_handle_plug hs p).2 ps

/-- A sample freshly created socket. -/
def exampleHS : HS := make_handle_socket 0 1 none (some 0)

/-- The sample socket in each of the four freeze states (with data buffered
    in the two states whose invariant requires it). -/
def hsU : HS := exampleHS

def hsFg : HS := { exampleHS with frozen := FrozenState.FREEZING }

def hsFz : HS :=
  { exampleHS with frozen := FrozenState.FROZEN, inputdata := [[9]] }

def hsTh : HS :=
  { exampleHS with frozen := FrozenState.THAWING, inputdata := [[9]] }

def cU : CState := { hs := hsU, freed := false, teardowns := 0 }

def cTh : CState := { hs := hsTh, freed := false, teardowns := 0 }

/-- A socket with a stderr side channel, for the close-order claims. -/
def cSide : CState :=
  { hs := make_handle_socket 5 6 (some 7) (some 0), freed := false,
    teardowns := 0 }

/-- The freeze-race scenario of spec §8: the Engine delivers AB, freeze is
    requested, the Engine delivers CD during the race, unfreeze is requested,
    and the scheduled drain callback fires. -/
def wTrace : List SockEvent :=
  [SockEvent.gotData [65, 66], SockEvent.setFrozen true,
   SockEvent.gotData [67, 68], SockEvent.setFrozen false, SockEvent.drain]

def wInit : CState := init_cstate 0 1 none (some 0)

theorem engine_bytes_cons (e : SockEvent) (es : List SockEvent) :
    engine_bytes (e :: es) = event_bytes e ++ engine_bytes es := by
  cases e <;> rfl

theorem bufchain_size_pos_ne_nil {b : List (List Nat)}
    (h : bufchain_size b > 0) : b ≠ [] := by
  intro hb
  subst hb
  simp [bufchain_size] at h

theorem bufchain_size_zero_nil {b : List (List Nat)}
    (hg : ∀ d ∈ b, d ≠ []) (h : bufchain_size b = 0) : b = [] := by
  cases b with
  | nil => rfl
  | cons d rest =>
    exfalso
    have hd : d ≠ [] := hg d (by simp)
    have hlen : d.length = 0 := by
      have h2 : d.length + (rest.map List.length).sum = 0 := by
        simpa [bufchain_size] using h
      omega
    exact hd (List.length_eq_zero.mp hlen)

theorem sock_inv_init (sH rH : Nat) (eH p : Option Nat) :
    sock_inv (init_cstate sH rH eH p) := by
  simp [sock_inv, init_cstate, make_handle_socket]

theorem sock_inv_step (c : CState) (e : SockEvent)
    (hi : sock_inv c) (hv : valid_eventb c e = true) :
    sock_inv (sock_step c e).1 := by
  obtain ⟨hiff, hgr, hdc, hdd⟩ := hi
  cases e with
  | setFrozen b =>
    cases b <;> cases hfz : c.hs.frozen <;>
      simp_all [sock_step, sk_handle_set_frozen, sock_inv]
  | gotData d =>
    have hv2 : (d ≠ [] ∧ c.hs.frozen ≠ FrozenState.FROZEN) ∧
        c.hs.frozen ≠ FrozenState.THAWING := by
      simpa [valid_eventb, Bool.and_eq_true, decide_eq_true_eq] using hv
    obtain ⟨⟨hdn, hnf⟩, hnt⟩ := hv2
    have h1 : ¬((d.length : Int) < 0) := not_lt.mpr (Int.natCast_nonneg _)
    have h2 : ¬((d.length : Int) = 0) := by
      intro h
      exact hdn (List.length_eq_zero.mp (by exact_mod_cast h))
    by_cases hfz : c.hs.frozen = FrozenState.FREEZING
    · have hempty : c.hs.inputdata = [] := by
        by_contra hne2
        rcases hiff.mpr hne2 with h | h
        · rw [hfz] at h; exact FrozenState.noConfusion h
        · rw [hfz] at h; exact FrozenState.noConfusion h
      simp [sock_step, handle_gotdata, h1, h2, hfz, sock_inv, hempty,
        bufchain_add, hdn, hdc, hdd]
    · have hstep : (sock_step c (SockEvent.gotData d)).1 = c := by
        simp [sock_step, handle_gotdata, h1, h2, hfz]
      rw [hstep]
      exact ⟨hiff, hgr, hdc, hdd⟩
  | gotEOF =>
    have hstep : (sock_step c SockEvent.gotEOF).1 = c := by
      simp [sock_step, handle_gotdata]
    rw [hstep]
    exact ⟨hiff, hgr, hdc, hdd⟩
  | gotReadError =>
    have hstep : (sock_step c SockEvent.gotReadError).1 = c := by
      simp [sock_step, handle_gotdata]
    rw [hstep]
    exact ⟨hiff, hgr, hdc, hdd⟩
  | drain =>
    by_cases hfz : c.hs.frozen = FrozenState.THAWING
    · have hne2 : c.hs.inputdata ≠ [] := hiff.mp (Or.inr hfz)
      obtain ⟨d, rest, hq⟩ := List.exists_cons_of_ne_nil hne2
      by_cases hrest : bufchain_size rest > 0
      · have hrne : rest ≠ [] := bufchain_size_pos_ne_nil hrest
        simp [sock_step, handle_socket_unfreeze_r, hfz, hq, close_n, hdd, hdc,
          hrest, sock_inv, hrne]
        intro x hx
        exact hgr x (by rw [hq]; exact List.mem_cons_of_mem d hx)
      · have hr0 : bufchain_size rest = 0 := Nat.eq_zero_of_not_pos hrest
        have hrnil : rest = [] := by
          refine bufchain_size_zero_nil ?_ hr0
          intro x hx
          exact hgr x (by rw [hq]; exact List.mem_cons_of_mem d hx)
        subst hrnil
        simp [sock_step, handle_socket_unfreeze_r, hfz, hq, close_n, hdd, hdc,
          bufchain_size, sock_inv]
    · simp [sock_step, handle_socket_unfreeze_r, hfz]
      exact ⟨hiff, hgr, hdc, hdd⟩

theorem valid_eventsb_cons {c : CState} {e : SockEvent} {es : List SockEvent}
    (hv : valid_eventsb c (e :: es) = true) :
    valid_eventb c e = true ∧ valid_eventsb (sock_step c e).1 es = true := by
  simpa [valid_eventsb, Bool.and_eq_true] using hv

theorem sock_inv_run (es : List SockEvent) :
    ∀ c : CState, sock_inv c → valid_eventsb c es = true →
      sock_inv (sock_run c es).1 := by
  induction es with
  | nil =>
    intro c hi _
    simpa [sock_run] using hi
  | cons e es ih =>
    intro c hi hv
    obtain ⟨hv1, hv2⟩ := valid_eventsb_cons hv
    simpa [sock_run] using ih (sock_step c e).1 (sock_inv_step c e hi hv1) hv2

theorem sock_step_bytes (c : CState) (e : SockEvent)
    (hi : sock_inv c) (hv : valid_eventb c e = true) :
    ((sock_step c e).2).flatten ++ bufchain_bytes (sock_step c e).1.hs.inputdata
      = bufchain_bytes c.hs.inputdata ++ event_bytes e := by
  obtain ⟨hiff, hgr, hdc, hdd⟩ := hi
  cases e with
  | setFrozen b =>
    cases b <;> cases hfz : c.hs.frozen <;>
      simp_all [sock_step, sk_handle_set_frozen, event_bytes]
  | gotData d =>
    have hv2 : (d ≠ [] ∧ c.hs.frozen ≠ FrozenState.FROZEN) ∧
        c.hs.frozen ≠ FrozenState.THAWING := by
      simpa [valid_eventb, Bool.and_eq_true, decide_eq_true_eq] using hv
    obtain ⟨⟨hdn, hnf⟩, hnt⟩ := hv2
    have h1 : ¬((d.length : Int) < 0) := not_lt.mpr (Int.natCast_nonneg _)
    have h2 : ¬((d.length : Int) = 0) := by
      intro h
      exact hdn (List.length_eq_zero.mp (by exact_mod_cast h))
    by_cases hfz : c.hs.frozen = FrozenState.FREEZING
    · simp [sock_step, handle_gotdata, h1, h2, hfz, event_bytes, plug_receives,
        bufchain_add, hdn, bufchain_bytes]
    · have hempty : c.hs.inputdata = [] := by
        by_contra hne2
        rcases hiff.mpr hne2 with h | h
        · exact hnf h
        · exact hnt h
      simp [sock_step, handle_gotdata, h1, h2, hfz, event_bytes, plug_receives,
        hempty, bufchain_bytes]
  | gotEOF =>
    simp [sock_step, handle_gotdata, event_bytes, plug_receives]
  | gotReadError =>
    simp [sock_step, handle_gotdata, event_bytes, plug_receives]
  | drain =>
    by_cases hfz : c.hs.frozen = FrozenState.THAWING
    · have hne2 : c.hs.inputdata ≠ [] := hiff.mp (Or.inr hfz)
      obtain ⟨d, rest, hq⟩ := List.exists_cons_of_ne_nil hne2
      by_cases hrest : bufchain_size rest > 0 <;>
        simp [sock_step, handle_socket_unfreeze_r, hfz, hq, close_n, hdd, hdc,
          hrest, event_bytes, bufchain_bytes]
    · simp [sock_step, handle_socket_unfreeze_r, hfz, event_bytes]

theorem sock_run_bytes (es : List SockEvent) :
    ∀ c : CState, sock_inv c → valid_eventsb c es = true →
      ((sock_run c es).2).flatten ++
          bufchain_bytes (sock_run c es).1.hs.inputdata
        = bufchain_bytes c.hs.inputdata ++ engine_bytes es := by
  induction es with
  | nil =>
    intro c _ _
    simp [sock_run, engine_bytes]
  | cons e es ih =>
    intro c hi hv
    obtain ⟨hv1, hv2⟩ := valid_eventsb_cons hv
    have h1 := sock_step_bytes c e hi hv1
    have h2 := ih (sock_step c e).1 (sock_inv_step c e hi hv1) hv2
    calc ((sock_run c (e :: es)).2).flatten ++
          bufchain_bytes (sock_run c (e :: es)).1.hs.inputdata
        = ((sock_step c e).2).flatten ++
            (((sock_run (sock_step c e).1 es).2).flatten ++
              bufchain_bytes (sock_run (sock_step c e).1 es).1.hs.inputdata) := by
          simp [sock_run, List.append_assoc]
      _ = ((sock_step c e).2).flatten ++
            (bufchain_bytes (sock_step c e).1.hs.inputdata ++ engine_bytes es) := by
          rw [h2]
      _ = (bufchain_bytes c.hs.inputdata ++ event_bytes e) ++ engine_bytes es := by
          rw [← List.append_assoc, h1]
      _ = bufchain_bytes c.hs.inputdata ++ engine_bytes (e :: es) := by
          rw [engine_bytes_cons, List.append_assoc]

theorem sk_handle_close_recorded (c : CState) (h : c.hs.defer_close = true) :
    (sk_handle_close c).1 =
      { c with hs := { c.hs with deferred_close := true } } := by
  simp [sk_handle_close, h]

theorem close_n_deferred (n : Nat) :
    ∀ c : CState, c.hs.defer_close = true → 1 ≤ n →
      close_n c n = { c with hs := { c.hs with deferred_close := true } } := by
  induction n with
  | zero =>
    intro c _ h1
    omega
  | succ m ih =>
    intro c hdc _
    cases m with
    | zero =>
      simp [close_n, sk_handle_close, hdc]
    | succ k =>
      have hstep : close_n c (Nat.succ (Nat.succ k)) =
          close_n ({ c with hs := { c.hs with deferred_close := true } })
            (Nat.succ k) := by
        rw [show close_n c (Nat.succ (Nat.succ k)) =
              close_n (sk_handle_close c).1 (Nat.succ k) from rfl,
            sk_handle_close_recorded c hdc]
      rw [hstep, ih _ (by simpa using hdc) (Nat.le_add_left 1 k)]

theorem sk_handle_close_error (c : CState) :
    ((sk_handle_close c).1).hs.error = c.hs.error := by
  by_cases h : c.hs.defer_close <;> simp [sk_handle_close, h]

theorem close_n_error (n : Nat) :
    ∀ c : CState, (close_n c n).hs.error = c.hs.error := by
  induction n with
  | zero => intro c; rfl
  | succ m ih =>
    intro c
    rw [show close_n c (Nat.succ m) = close_n (sk_handle_close c).1 m from rfl,
        ih, sk_handle_close_error]

theorem handle_socket_unfreeze_r_error (c : CState) (n : Nat) :
    ((handle_socket_unfreeze_r c n).1).hs.error = c.hs.error := by
  by_cases hfz : c.hs.frozen = FrozenState.THAWING
  · cases hq : c.hs.inputdata with
    | nil => simp [handle_socket_unfreeze_r, hfz, hq]
    | cons d rest =>
      simp only [handle_socket_unfreeze_r, hfz, if_true, hq]
      split_ifs <;> simp [sk_handle_close_error, close_n_error]
  · simp [handle_socket_unfreeze_r, hfz]

theorem sock_step_error (c : CState) (e : SockEvent) :
    ((sock_step c e).1).hs.error = c.hs.error := by
  cases e with
  | setFrozen b =>
    cases b <;> cases hfz : c.hs.frozen <;>
      simp [sock_step, sk_handle_set_frozen, hfz]
  | gotData d =>
    simp only [sock_step]
    unfold handle_gotdata
    split_ifs <;> simp
  | gotEOF => simp [sock_step, handle_gotdata]
  | gotReadError => simp [sock_step, handle_gotdata]
  | drain => exact handle_socket_unfreeze_r_error c 0

theorem sock_run_error (es : List SockEvent) :
    ∀ c : CState, ((sock_run c es).1).hs.error = c.hs.error := by
  induction es with
  | nil => intro c; rfl
  | cons e es ih =>
    intro c
    rw [show (sock_run c (e :: es)).1 = (sock_run (sock_step c e).1 es).1
          from rfl,
        ih, sock_step_error]

theorem plug_updates_ne_none (ps : List (Option Nat)) :
    ∀ hs : HS, hs.plug ≠ none → (plug_updates hs ps).plug ≠ none := by
  induction ps with
  | nil => intro hs h; simpa [plug_updates] using h
  | cons p ps ih =>
    intro hs h
    cases p with
    | none =>
      exact ih _ (by simpa [sk_handle_plug] using h)
    | some q =>
      exact ih _ (by simp [sk_handle_plug])

/-- C1: for every finite sequence of setFrozen requests interleaved with
    Engine read deliveries that respects the Engine contract (no delivery
    while FROZEN or THAWING, positive-length deliveries carry data), once the
    buffered input has fully drained, the concatenation of the chunks passed
    to plug_receive — directly by handle_gotdata or later by drain callbacks
    from handle_socket_unfreeze — equals the concatenation of the bytes the
    Engine delivered, in order, with no byte duplicated or lost. -/
theorem handle_socket_bytes_in_order (sH rH : Nat) (eH p : Option Nat)
    (es : List SockEvent)
    (hv : valid_eventsb (init_cstate sH rH eH p) es = true)
    (hq : (sock_run (init_cstate sH rH eH p) es).1.hs.inputdata = []) :
    ((sock_run (init_cstate sH rH eH p) es).2).flatten = engine_bytes es := by
  have h := sock_run_bytes es (init_cstate sH rH eH p)
    (sock_inv_init sH rH eH p) hv
  rw [hq] at h
  simpa [bufchain_bytes, init_cstate, make_handle_socket] using h

theorem handle_socket_bytes_in_order_witness :
    valid_eventsb wInit wTrace = true ∧
    (sock_run wInit wTrace).1.hs.inputdata = [] ∧
    ((sock_run wInit wTrace).2).flatten = engine_bytes wTrace :=
  ⟨by decide, by decide,
   handle_socket_bytes_in_order 0 1 none (some 0) wTrace (by decide)
     (by decide)⟩

/-- C2: `sk_handle_set_frozen` implements exactly the transition table of
    spec §4.1: freeze in FREEZING/FROZEN is a no-op; freeze in THAWING moves
    to FROZEN with the input queue untouched; freeze in UNFROZEN moves to
    FREEZING; unfreeze in UNFROZEN/THAWING is a no-op; unfreeze in FREEZING
    moves directly to UNFROZEN (and on every reachable state the input queue
    is then empty, so the assertion holds); unfreeze in FROZEN moves to
    THAWING and queues one drain callback; and a drain callback that runs in
    any state other than THAWING self-cancels without touching the state. -/
theorem sk_handle_set_frozen_table (hs : HS) :
    (hs.frozen = FrozenState.FREEZING →
      sk_handle_set_frozen hs true = (hs, false)) ∧
    (hs.frozen = FrozenState.FROZEN →
      sk_handle_set_frozen hs true = (hs, false)) ∧
    (hs.frozen = FrozenState.THAWING →
      sk_handle_set_frozen hs true =
        ({ hs with frozen := FrozenState.FROZEN }, false)) ∧
    (hs.frozen = FrozenState.UNFROZEN →
      sk_handle_set_frozen hs true =
        ({ hs with frozen := FrozenState.FREEZING }, false)) ∧
    (hs.frozen = FrozenState.UNFROZEN →
      sk_handle_set_frozen hs false = (hs, false)) ∧
    (hs.frozen = FrozenState.THAWING →
      sk_handle_set_frozen hs false = (hs, false)) ∧
    (hs.frozen = FrozenState.FREEZING →
      sk_handle_set_frozen hs false =
        ({ hs with frozen := FrozenState.UNFROZEN }, false)) ∧
    (hs.frozen = FrozenState.FROZEN →
      sk_handle_set_frozen hs false =
        ({ hs with frozen := FrozenState.THAWING }, true)) ∧
    (∀ c : CState, ∀ n : Nat, c.hs.frozen ≠ FrozenState.THAWING →
      handle_socket_unfreeze_r c n = (c, [])) ∧
    (∀ sH rH : Nat, ∀ eH p : Option Nat, ∀ es : List SockEvent,
      valid_eventsb (init_cstate sH rH eH p) es = true →
      (sock_run (init_cstate sH rH eH p) es).1.hs.frozen =
        FrozenState.FREEZING →
      (sock_run (init_cstate sH rH eH p) es).1.hs.inputdata = []) := by
  refine ⟨?_, ?_, ?_, ?_, ?_, ?_, ?_, ?_, ?_, ?_⟩
  · intro h; simp [sk_handle_set_frozen, h]
  · intro h; simp [sk_handle_set_frozen, h]
  · intro h; simp [sk_handle_set_frozen, h]
  · intro h; simp [sk_handle_set_frozen, h]
  · intro h; simp [sk_handle_set_frozen, h]
  · intro h; simp [sk_handle_set_frozen, h]
  · intro h; simp [sk_handle_set_frozen, h]
  · intro h; simp [sk_handle_set_frozen, h]
  · intro c n h; simp [handle_socket_unfreeze_r, h]
  · intro sH rH eH p es hv hfg
    obtain ⟨hiff, -, -, -⟩ :=
      sock_inv_run es (init_cstate sH rH eH p) (sock_inv_init sH rH eH p) hv
    by_contra hne
    rcases hiff.mpr hne with h | h <;> rw [hfg] at h <;>
      exact FrozenState.noConfusion h

theorem sk_handle_set_frozen_table_witness :
    sk_handle_set_frozen hsFg true = (hsFg, false) ∧
    sk_handle_set_frozen hsFz true = (hsFz, false) ∧
    sk_handle_set_frozen hsTh true =
      ({ hsTh with frozen := FrozenState.FROZEN }, false) ∧
    sk_handle_set_frozen hsU true =
      ({ hsU with frozen := FrozenState.FREEZING }, false) ∧
    sk_handle_set_frozen hsU false = (hsU, false) ∧
    sk_handle_set_frozen hsTh false = (hsTh, false) ∧
    sk_handle_set_frozen hsFg false =
      ({ hsFg with frozen := FrozenState.UNFROZEN }, false) ∧
    sk_handle_set_frozen hsFz false =
      ({ hsFz with frozen := FrozenState.THAWING }, true) ∧
    handle_socket_unfreeze_r cU 1 = (cU, []) ∧
    (sock_run (init_cstate 0 1 none (some 0))
      [SockEvent.setFrozen true]).1.hs.inputdata = [] :=
  ⟨(sk_handle_set_frozen_table hsFg).1 (by decide),
   (sk_handle_set_frozen_table hsFz).2.1 (by decide),
   (sk_handle_set_frozen_table hsTh).2.2.1 (by decide),
   (sk_handle_set_frozen_table hsU).2.2.2.1 (by decide),
   (sk_handle_set_frozen_table hsU).2.2.2.2.1 (by decide),
   (sk_handle_set_frozen_table hsTh).2.2.2.2.2.1 (by decide),
   (sk_handle_set_frozen_table hsFg).2.2.2.2.2.2.1 (by decide),
   (sk_handle_set_frozen_table hsFz).2.2.2.2.2.2.2.1 (by decide),
   (sk_handle_set_frozen_table hsU).2.2.2.2.2.2.2.2.1 cU 1 (by decide),
   (sk_handle_set_frozen_table hsU).2.2.2.2.2.2.2.2.2 0 1 none (some 0)
     [SockEvent.setFrozen true] (by decide) (by decide)⟩

/-- C3: `handle_gotdata` invoked with a positive length while the socket is
    FREEZING appends exactly the delivered bytes to the input bufchain,
    moves to FROZEN, makes no Plug call, and returns INT_MAX; invoked while
    UNFROZEN it hands the bytes straight to plug_receive, leaves the input
    bufchain unchanged, and returns backlog 0. -/
theorem handle_gotdata_positive (hs : HS) (data : List Nat)
    (hd : data ≠ []) :
    (hs.frozen = FrozenState.FREEZING →
      handle_gotdata hs data (data.length : Int) =
        ({ hs with inputdata := hs.inputdata ++ [data],
                   frozen := FrozenState.FROZEN }, [], INT_MAX) ∧
      bufchain_bytes (hs.inputdata ++ [data]) =
        bufchain_bytes hs.inputdata ++ data) ∧
    (hs.frozen = FrozenState.UNFROZEN →
      handle_gotdata hs data (data.length : Int) =
        (hs, [PlugEvent.receive data], 0)) := by
  have h1 : ¬((data.length : Int) < 0) := not_lt.mpr (Int.natCast_nonneg _)
  have h2 : ¬((data.length : Int) = 0) := by
    intro h
    exact hd (List.length_eq_zero.mp (by exact_mod_cast h))
  constructor
  · intro hfz
    constructor
    · simp [handle_gotdata, h1, h2, hfz, bufchain_add, hd]
    · simp [bufchain_bytes]
  · intro hfz
    simp [handle_gotdata, h1, h2, hfz]

theorem handle_gotdata_positive_witness :
    handle_gotdata hsFg [3, 4] ((2 : Nat) : Int) =
      ({ hsFg with inputdata := [[3, 4]], frozen := FrozenState.FROZEN },
       [], INT_MAX) ∧
    handle_gotdata hsU [3, 4] ((2 : Nat) : Int) =
      (hsU, [PlugEvent.receive [3, 4]], 0) :=
  ⟨by
    have h := ((handle_gotdata_positive hsFg [3, 4] (by decide)).1
      (by decide)).1
    simpa using h,
   (handle_gotdata_positive hsU [3, 4] (by decide)).2 (by decide)⟩

/-- C4: if close is requested while a delivery callback is executing
    (defer_close set), each such request only records deferred_close and
    frees nothing, and the deferred close then completes exactly once,
    immediately after the plug_receive call returns inside the drain
    callback — however many times the Plug asked for it.  On the direct
    delivery path of handle_gotdata a close from inside plug_receive tears
    the socket down exactly once as well, and that path never touches the
    socket after plug_receive returns (in the model its result state is
    exactly the state left by the Plug's own close call). -/
theorem reentrant_close_deferred_once (c : CState) (n : Nat) (hn : 1 ≤ n)
    (hf : c.hs.frozen = FrozenState.THAWING) (hq : c.hs.inputdata ≠ [])
    (hdc : c.hs.defer_close = false) (hdd : c.hs.deferred_close = false)
    (hfr : c.freed = false) (ht : c.teardowns = 0) :
    (close_n { c with hs := { c.hs with defer_close := true } } n).freed =
      false ∧
    (close_n { c with hs := { c.hs with defer_close := true } } n).teardowns =
      0 ∧
    (close_n { c with
      hs := { c.hs with defer_close := true } } n).hs.deferred_close = true ∧
    (handle_socket_unfreeze_r c n).1.freed = true ∧
    (handle_socket_unfreeze_r c n).1.teardowns = 1 ∧
    (∀ c2 : CState, ∀ d : List Nat, c2.hs.frozen = FrozenState.UNFROZEN →
      c2.hs.defer_close = false → c2.freed = false → c2.teardowns = 0 →
      (handle_gotdata_r c2 d 1).1 = (sk_handle_close c2).1 ∧
      (handle_gotdata_r c2 d 1).1.freed = true ∧
      (handle_gotdata_r c2 d 1).1.teardowns = 1) := by
  have hc1 : ({ c with
      hs := { c.hs with defer_close := true } } : CState).hs.defer_close =
      true := rfl
  have hkey := close_n_deferred n
    { c with hs := { c.hs with defer_close := true } } hc1 hn
  obtain ⟨d, rest, hqe⟩ := List.exists_cons_of_ne_nil hq
  have hkey2 := hkey
  simp only [hf, hqe, hdd] at hkey2
  refine ⟨by rw [hkey]; exact hfr, by rw [hkey]; exact ht,
    by rw [hkey], ?_, ?_, ?_⟩
  · simp only [handle_socket_unfreeze_r, hf, if_true, hqe, hdd]
    rw [hkey2]
    simp [sk_handle_close]
  · simp only [handle_socket_unfreeze_r, hf, if_true, hqe, hdd]
    rw [hkey2]
    simp [sk_handle_close, ht]
  · intro c2 d2 hU hdc2 hfr2 ht2
    have hnf : ¬(c2.hs.frozen = FrozenState.FREEZING) := by
      rw [hU]; exact fun h => FrozenState.noConfusion h
    have h10 : close_n c2 1 = (sk_handle_close c2).1 := rfl
    refine ⟨by simp [handle_gotdata_r, hnf, h10], ?_, ?_⟩
    · simp [handle_gotdata_r, hnf, h10, sk_handle_close, hdc2]
    · simp [handle_gotdata_r, hnf, h10, sk_handle_close, hdc2, ht2]

theorem reentrant_close_deferred_once_witness :
    (handle_socket_unfreeze_r cTh 2).1.freed = true ∧
    (handle_socket_unfreeze_r cTh 2).1.teardowns = 1 :=
  ⟨(reentrant_close_deferred_once cTh 2 (by decide) (by decide) (by decide)
      (by decide) (by decide) (by decide) (by decide)).2.2.2.1,
   (reentrant_close_deferred_once cTh 2 (by decide) (by decide) (by decide)
      (by decide) (by decide) (by decide) (by decide)).2.2.2.2.1⟩

/-- C5 counterexample: on a socket with a side channel, a non-deferred close
    does not perform the teardown steps in the order the claim states — the
    first worker released is the send (write) worker, not the read worker,
    and the side-channel worker is never released at all. -/
theorem sk_handle_close_order_counterexample :
    (sk_handle_close cSide).2 ≠ spec_close_order cSide ∧
    CloseAction.handle_free_stderr ∉ (sk_handle_close cSide).2 ∧
    ((sk_handle_close cSide).2).head? = some CloseAction.handle_free_send :=
  ⟨by decide, by decide, by decide⟩

/-- C5 (amended): a non-deferred close releases the write worker, then the
    read worker — the side-channel worker is never released — then closes
    the send handle (and the receive handle when distinct), then clears the
    input queue, then the stderr queue, then frees the adapter, in exactly
    that order. -/
theorem sk_handle_close_order_actual (c : CState)
    (h : c.hs.defer_close = false) :
    (sk_handle_close c).2 =
      [CloseAction.handle_free_send, CloseAction.handle_free_recv,
       CloseAction.close_handle c.hs.send_H] ++
      (if c.hs.recv_H ≠ c.hs.send_H then
        [CloseAction.close_handle c.hs.recv_H] else []) ++
      [CloseAction.clear_inputdata, CloseAction.clear_stderrdata,
       CloseAction.sfree] ∧
    CloseAction.handle_free_stderr ∉ (sk_handle_close c).2 ∧
    (sk_handle_close c).1.freed = true ∧
    (sk_handle_close c).1.hs.inputdata = [] ∧
    (sk_handle_close c).1.hs.stderrdata = [] := by
  refine ⟨by simp [sk_handle_close, h], ?_, by simp [sk_handle_close, h],
    by simp [sk_handle_close, h], by simp [sk_handle_close, h]⟩
  by_cases hrs : c.hs.recv_H = c.hs.send_H <;> simp [sk_handle_close, h, hrs]

theorem sk_handle_close_order_actual_witness :
    (sk_handle_close cSide).2 =
      [CloseAction.handle_free_send, CloseAction.handle_free_recv,
       CloseAction.close_handle 5, CloseAction.close_handle 6,
       CloseAction.clear_inputdata, CloseAction.clear_stderrdata,
       CloseAction.sfree] := by
  have h := (sk_handle_close_order_actual cSide (by decide)).1
  simpa [cSide, make_handle_socket] using h

/-- C6: the invariant of spec §3 — the input queue is empty whenever the
    state is UNFROZEN, and non-empty only in the FROZEN and THAWING states —
    holds after creation and after every contract-respecting sequence of
    setFrozen requests, handle_gotdata deliveries of any length, and drain
    callback runs. -/
theorem input_queue_state_invariant (sH rH : Nat) (eH p : Option Nat)
    (es : List SockEvent)
    (hv : valid_eventsb (init_cstate sH rH eH p) es = true) :
    c6_invariant (sock_run (init_cstate sH rH eH p) es).1 := by
  obtain ⟨hiff, -, -, -⟩ :=
    sock_inv_run es (init_cstate sH rH eH p) (sock_inv_init sH rH eH p) hv
  constructor
  · intro hU
    by_contra hne
    rcases hiff.mpr hne with h | h <;> rw [hU] at h <;>
      exact FrozenState.noConfusion h
  · intro hne
    exact hiff.mpr hne

theorem input_queue_state_invariant_witness :
    valid_eventsb wInit
      [SockEvent.setFrozen true, SockEvent.gotData [1, 2],
       SockEvent.setFrozen false, SockEvent.gotEOF] = true ∧
    c6_invariant (sock_run wInit
      [SockEvent.setFrozen true, SockEvent.gotData [1, 2],
       SockEvent.setFrozen false, SockEvent.gotEOF]).1 :=
  ⟨by decide,
   input_queue_state_invariant 0 1 none (some 0)
     [SockEvent.setFrozen true, SockEvent.gotData [1, 2],
      SockEvent.setFrozen false, SockEvent.gotEOF] (by decide)⟩

/-- C7: when the Engine's sent-backlog callback reports a negative value, the
    Plug receives exactly one plug_closing call carrying the win_strerror
    description of the negated (positive) error code and no plug_sent call;
    when it reports a non-negative value, the Plug receives exactly that
    value via plug_sent and no plug_closing call. -/
theorem handle_sentdata_cases (v e : Int) :
    (v < 0 → handle_sentdata v =
        [PlugEvent.closing (some (win_strerror (-v))) (-v)] ∧
      count_closing (handle_sentdata v) = 1 ∧
      count_sent (handle_sentdata v) = 0) ∧
    (0 ≤ v → handle_sentdata v = [PlugEvent.sent v] ∧
      count_sent (handle_sentdata v) = 1 ∧
      count_closing (handle_sentdata v) = 0) ∧
    (0 < e → handle_sentdata (-e) =
      [PlugEvent.closing (some (win_strerror e)) e]) := by
  refine ⟨?_, ?_, ?_⟩
  · intro h
    simp [handle_sentdata, h, count_closing, count_sent]
  · intro h
    simp [handle_sentdata, not_lt.mpr h, count_closing, count_sent]
  · intro h
    have h2 : (-e) < 0 := by omega
    simp [handle_sentdata, h2]

theorem handle_sentdata_cases_witness :
    handle_sentdata (-5) =
      [PlugEvent.closing (some (win_strerror 5)) 5] ∧
    count_closing (handle_sentdata (-5)) = 1 ∧
    count_sent (handle_sentdata (-5)) = 0 ∧
    handle_sentdata 3 = [PlugEvent.sent 3] :=
  ⟨(handle_sentdata_cases (-5) 5).2.2 (by decide),
   ((handle_sentdata_cases (-5) 5).1 (by decide)).2.1,
   ((handle_sentdata_cases (-5) 5).1 (by decide)).2.2,
   ((handle_sentdata_cases 3 5).2.1 (by decide)).1⟩

/-- C8 counterexample: handle_gotdata reports a fatal read failure to the
    Plug, yet a subsequent sk_handle_socket_error call on the resulting
    socket still returns none, not the fatal-error description. -/
theorem sk_handle_socket_error_counterexample :
    (handle_gotdata exampleHS [] (-1)).2.1 =
      [PlugEvent.closing (some "Read error from handle") 0] ∧
    sk_handle_socket_error (handle_gotdata exampleHS [] (-1)).1 = none :=
  ⟨rfl, rfl⟩

/-- C8 (amended): sk_handle_socket_error returns the socket's error field;
    that field is none at creation and no operation of this file ever sets
    it — handle_gotdata for any length, sk_handle_set_frozen, drain
    callbacks (whatever the Plug does during them), sk_handle_close and
    whole event traces all leave it unchanged, and handle_sentdata does not
    touch the socket state at all — so lastError returns none even after a
    read or write failure has been reported to the Plug via plug_closing. -/
theorem sk_handle_socket_error_always_none :
    (∀ sH rH : Nat, ∀ eH p : Option Nat,
      sk_handle_socket_error (make_handle_socket sH rH eH p) = none) ∧
    (∀ hs : HS, sk_handle_socket_error hs = hs.error) ∧
    (∀ hs : HS, ∀ data : List Nat, ∀ len : Int,
      ((handle_gotdata hs data len).1).error = hs.error) ∧
    (∀ hs : HS, ∀ b : Bool,
      ((sk_handle_set_frozen hs b).1).error = hs.error) ∧
    (∀ c : CState, ∀ n : Nat,
      ((handle_socket_unfreeze_r c n).1).hs.error = c.hs.error) ∧
    (∀ c : CState, ((sk_handle_close c).1).hs.error = c.hs.error) ∧
    (∀ c : CState, ∀ es : List SockEvent,
      ((sock_run c es).1).hs.error = c.hs.error) := by
  refine ⟨?_, ?_, ?_, ?_, ?_, ?_, ?_⟩
  · intro sH rH eH p; rfl
  · intro hs; rfl
  · intro hs data len
    unfold handle_gotdata
    split_ifs <;> rfl
  · intro hs b
    cases b <;> cases h : hs.frozen <;> simp [sk_handle_set_frozen, h]
  · exact handle_socket_unfreeze_r_error
  · exact sk_handle_close_error
  · intro c es
    exact sock_run_error es c

/-- C9 counterexample: sk_handle_write invoked with an empty byte sequence
    still issues a write call to the Engine's write operation for the send
    worker, contrary to the claim that no Engine write call is made. -/
theorem sk_handle_write_empty_counterexample :
    (sk_handle_write ⟨[5, 6]⟩ []).2.2 = [EngineCall.write []] ∧
    (sk_handle_write ⟨[5, 6]⟩ []).2.2 ≠ ([] : List EngineCall) :=
  ⟨rfl, by decide⟩

/-- C9 (amended): write with an empty byte sequence returns the current send
    backlog unchanged and leaves the Engine's queued data unchanged, but it
    does so by forwarding the call — it issues exactly one (empty-payload)
    write call to the Engine's write operation rather than none. -/
theorem sk_handle_write_empty (w : EngineWriter) :
    sk_handle_write w [] =
      (w, (w.queued.length : Int), [EngineCall.write []]) := by
  cases w with
  | mk q => simp [sk_handle_write, engine_handle_write]

/-- C10: sk_handle_plug always returns the previously registered Plug; a
    null argument leaves the socket, and so its registered Plug, unchanged;
    consequently a socket created with a non-null Plug still has a non-null
    Plug after any sequence of sk_handle_plug calls. -/
theorem sk_handle_plug_spec :
    (∀ hs : HS, ∀ p : Option Nat, (sk_handle_plug hs p).1 = hs.plug) ∧
    (∀ hs : HS, (sk_handle_plug hs none).2 = hs) ∧
    (∀ sH rH : Nat, ∀ eH : Option Nat, ∀ q : Nat,
      ∀ ps : List (Option Nat),
      (plug_updates (make_handle_socket sH rH eH (some q)) ps).plug ≠
        none) := by
  refine ⟨?_, ?_, ?_⟩
  · intro hs p
    cases p <;> rfl
  · intro hs
    rfl
  · intro sH rH eH q ps
    exact plug_updates_ne_none ps _ (by simp [make_handle_socket])
